import Mathlib

/-!
Verification of the account-fleet orchestrator of steam-comment-service-bot:
a shallow embedding of the proxy health checker (checkProxies.js), the
addfriend / unfriend / unfriendall commands (friend.js), the restart-state
carrying of controller.js and the limitedcheck helper, together with proofs
of the specified properties.
-/

/- ================== ProxyPool: checkProxies.js ================== -/

/-- One entry of the DataManager proxies array.  `proxy` is the proxy URL or
`none` for direct egress (`thisProxy.proxy != null` in the source). -/
structure ProxyRecord where
  proxy : Option String
  proxyIndex : Nat
  isOnline : Bool
  lastOnlineCheck : Nat
deriving Repr, DecidableEq

/-- Outcome of one `checkConnection` probe: the promise either resolves with a
status code or rejects (network failure, timeout, or non-2xx rejection). -/
inductive ProbeOutcome where
  | resolved (statusCode : Nat)
  | rejected
deriving Repr, DecidableEq

/-- `DataManager.prototype.checkProxy`: the `.then` branch sets
`isOnline = res.statusCode >= 200 && res.statusCode < 300`, the `.catch`
branch sets `isOnline = false`, and afterwards `lastOnlineCheck = Date.now()`
is assigned unconditionally.  The function returns the updated record together
with the returned boolean `thisProxy.isOnline`. -/
def checkProxy (outcome : ProbeOutcome) (now : Nat) (p : ProxyRecord) :
    ProxyRecord × Bool :=
  let p1 :=
    match outcome with
    | .resolved code =>
        { p with isOnline := decide (200 ≤ code) && decide (code < 300) }
    | .rejected => { p with isOnline := false }
  let p2 := { p1 with lastOnlineCheck := now }
  (p2, p2.isOnline)

/-- Replace the element at position `i` of a list by `f` of it (the mutation
`this.proxies[proxyIndex] = ...` performed by `checkProxy`). -/
def modifyIdx (f : ProxyRecord → ProxyRecord) : Nat → List ProxyRecord → List ProxyRecord
  | _, [] => []
  | 0, p :: ps => f p :: ps
  | n + 1, p :: ps => p :: modifyIdx f n ps

/-- `DataManager.prototype.checkAllProxies`: iterates over `this.proxies`,
starts `checkProxy(e.proxyIndex)` for each entry, and awaits all of them;
each check mutates the record at `e.proxyIndex`.  `outcomes i` is the probe
outcome observed by the check of proxy index `i`. -/
def checkAllProxies (outcomes : Nat → ProbeOutcome) (now : Nat)
    (ps : List ProxyRecord) : List ProxyRecord :=
  (ps.map (fun e => e.proxyIndex)).foldl
    (fun acc i => modifyIdx (fun q => (checkProxy (outcomes i) now q).1) i acc) ps

/- ================== AccountSessions: friend.js ================== -/

/-- The `limitations` object of a logged-in account (`e.user.limitations`). -/
structure Limitations where
  limited : Bool
deriving Repr, DecidableEq

/-- The slice of a `user` (steam-user) object read by friend.js:
`limitations` may still be unpopulated (`undefined`), and `myFriends` maps
steamID64 keys to EFriendRelationship values (3 = Friend, 1 = Blocked). -/
structure BotUser where
  limitations : Option Limitations
  myFriends : List (String × Nat)
deriving Repr, DecidableEq

/-- One bot account of `controller.getBots()`, with its stable `index`. -/
structure BotAcc where
  index : Nat
  user : BotUser
deriving Repr, DecidableEq

/-- `e.user.myFriends[res]`: `none` models an id absent from the object. -/
def relOf (u : BotUser) (id : String) : Option Nat :=
  u.myFriends.lookup id

/-- `e.user.limitations && e.user.limitations.limited == true`. -/
def isLimited (u : BotUser) : Bool :=
  match u.limitations with
  | some l => l.limited
  | none => false

/-- What the addfriend run does for one bot account: skip with a logged error
(account limited), schedule the remote `addFriend` call inside
`setTimeout(..., 5000 * i)` (the same timeout also runs
`friendListCapacityCheck`), or warn that the target is already a friend or
blocked. -/
inductive AddFriendEvent where
  | limitedSkip (botIndex : Nat)
  | schedule (delayMs : Nat) (botIndex : Nat) (target : String)
  | alreadyFriendOrBlocked (botIndex : Nat)
deriving Repr, DecidableEq

/-- The body of the `commandHandler.controller.getBots().forEach((e, i) => ...)`
loop of addFriend.run, for the bot `e` at batch position `i`. -/
def addFriendBotAction (res : String) (i : Nat) (e : BotAcc) : AddFriendEvent :=
  if isLimited e.user then AddFriendEvent.limitedSkip e.index
  else if relOf e.user res ≠ some 3 ∧ relOf e.user res ≠ some 1 then
    AddFriendEvent.schedule (5000 * i) e.index res
  else AddFriendEvent.alreadyFriendOrBlocked e.index

/-- Result of one addFriend.run invocation after the target id has been
resolved: whether the early `addfriendcmdacclimited` response was sent
(main/first account limited), and the per-bot events of the batch loop. -/
structure AddFriendRunResult where
  respondedMainLimitedError : Bool
  events : List AddFriendEvent
deriving Repr, DecidableEq

/-- `addFriend.run` after id resolution: if the main (first) bot account is
limited, respond with the error instantly and return before the batch loop;
otherwise run the batch loop over all bot accounts. -/
def addFriendRun (mainUser : BotUser) (bots : List BotAcc) (res : String) :
    AddFriendRunResult :=
  if isLimited mainUser then ⟨true, []⟩
  else ⟨false, bots.enum.map (fun p => addFriendBotAction res p.1 p.2)⟩

/-- Whether an addfriend event dispatches a remote `addFriend` call. -/
def issuesRemoteCall : AddFriendEvent → Bool
  | AddFriendEvent.schedule _ _ _ => true
  | _ => false

/-- Modelled from the spec: the comment and vote command implementations are
not among the provided source files (only the friend-list commands are).  Per
the spec, comment and vote actions are not blocked by the limitation flag
alone, so the limitation flag never blocks them by itself. -/
def commentActionBlockedByLimitation (_u : BotUser) : Bool :=
  false

/-- The data unfriend.run reads: the cached owner id list, the optional
per-request owner override, the requesting user and where the command came
from, and the bot accounts. -/
structure UnfriendCtx where
  ownerid : List String
  resInfoOwnerIDs : List String
  userID : String
  fromSteamChat : Bool
  bots : List BotAcc
deriving Repr, DecidableEq

/-- Result of one unfriend.run invocation: one of the early responses, or the
list of scheduled `removeFriend` calls as (delayMs, batch position, target). -/
inductive UnfriendOutcome where
  | noIdParam
  | notOwner
  | resolveError
  | ownerRefused
  | dispatched (calls : List (Nat × Nat × String))
deriving Repr, DecidableEq

/-- `unfriend.run`: with no argument from the steam chat, every bot schedules
`removeFriend(resInfo.userID)` at `1000 * i` (no owner check); otherwise the
command is owner-only, the argument is resolved, a resolved target found in
the cached owner id list is refused, and otherwise every bot schedules
`removeFriend(res)` at `1000 * i`. -/
def unfriendRun (ctx : UnfriendCtx) (args : List String)
    (resolveResult : Option String) : UnfriendOutcome :=
  if args.head? = none ∧ ¬ ctx.fromSteamChat then UnfriendOutcome.noIdParam
  else if args.head? = none ∧ ctx.userID ≠ "" ∧ ctx.fromSteamChat then
    UnfriendOutcome.dispatched
      (ctx.bots.enum.map (fun p => (1000 * p.1, p.1, ctx.userID)))
  else
    let owners :=
      if ctx.resInfoOwnerIDs.length > 0 then ctx.resInfoOwnerIDs else ctx.ownerid
    if ctx.userID ∉ owners then UnfriendOutcome.notOwner
    else
      match resolveResult with
      | none => UnfriendOutcome.resolveError
      | some res =>
          if res ∈ ctx.ownerid then UnfriendOutcome.ownerRefused
          else
            UnfriendOutcome.dispatched
              (ctx.bots.enum.map (fun p => (1000 * p.1, p.1, res)))

/-- The timers scheduled by the unfriendall batch loop once its 30 second
start timer has fired: for the bot at position `i` and each key `friend` of
its `myFriends`, a timer at `1000 * i` carrying that friend id. -/
def unfriendallTimers (bots : List BotAcc) : List (Nat × Nat × String) :=
  bots.enum.flatMap (fun p => p.2.user.myFriends.map (fun fr => (1000 * p.1, p.1, fr.1)))

/-- The `removeFriend` calls unfriendall actually dispatches: each timer fires
and dispatches unless its friend id is in the cached owner id list (owners are
skipped inside the timer callback). -/
def unfriendallDispatch (ownerid : List String) (bots : List BotAcc) :
    List (Nat × Nat × String) :=
  (unfriendallTimers bots).filter (fun t => !(ownerid.contains t.2.2))

/-- The locals of one unfriendall.run invocation: `abortunfriendall` is
declared with `var` inside `run`, so it is function-scoped to this one
invocation; `timerScheduled` records whether the 30 second start timer was
installed. -/
structure UnfriendallLocal where
  abortunfriendall : Bool
  timerScheduled : Bool
deriving Repr, DecidableEq

/-- The synchronous part of unfriendall.run: an `abort` argument responds and
sets this invocation's own `abortunfriendall = true` without scheduling
anything; otherwise `abortunfriendall = false` is set and the 30 second start
timer is scheduled. -/
def unfriendallSync (args : List String) : UnfriendallLocal :=
  if args.head? = some "abort" then ⟨true, false⟩ else ⟨false, true⟩

/-- The full effect of one unfriendall.run invocation on invocation-local
state: it creates and writes only its own fresh local; the local of any other
(for example earlier, still pending) invocation is left untouched, because
`var abortunfriendall` lives inside `run`. -/
def unfriendallRunEffect (args : List String) (pendingLocal : UnfriendallLocal) :
    UnfriendallLocal × UnfriendallLocal :=
  (unfriendallSync args, pendingLocal)

/-- The 30 second start timer of a pending invocation: it reads that
invocation's own `abortunfriendall` once; if false, the whole batch of per-bot
removal timers runs, and those timers never consult the flag again. -/
def unfriendallTimerFire (loc : UnfriendallLocal) (ownerid : List String)
    (bots : List BotAcc) : List (Nat × Nat × String) :=
  if loc.abortunfriendall then [] else unfriendallDispatch ownerid bots

/-- Outcome of one remote capability call (the `err` parameter of the
`addFriend` callback). -/
inductive CallOutcome where
  | ok
  | fail (msg : String)
deriving Repr, DecidableEq

/-- The per-item log line the addfriend batch produces for one event. -/
inductive ItemReport where
  | skippedLimited (botIndex : Nat)
  | skippedAlreadyFriendOrBlocked (botIndex : Nat)
  | added (botIndex : Nat)
  | addError (botIndex : Nat) (msg : String)
deriving Repr, DecidableEq

/-- How one addfriend event is reported, given each bot's remote outcome:
the `addFriend` callback logs the error for that bot or the success line. -/
def addFriendItemReport (outcome : Nat → CallOutcome) :
    AddFriendEvent → ItemReport
  | AddFriendEvent.limitedSkip idx => ItemReport.skippedLimited idx
  | AddFriendEvent.alreadyFriendOrBlocked idx =>
      ItemReport.skippedAlreadyFriendOrBlocked idx
  | AddFriendEvent.schedule _ idx _ =>
      match outcome idx with
      | CallOutcome.ok => ItemReport.added idx
      | CallOutcome.fail m => ItemReport.addError idx m

/-- The addfriend batch with its per-item outcomes: one report per event. -/
def addFriendRunWithOutcomes (mainUser : BotUser) (bots : List BotAcc)
    (res : String) (outcome : Nat → CallOutcome) : List ItemReport :=
  (addFriendRun mainUser bots res).events.map (addFriendItemReport outcome)

/-- The unfriendall batch with its per-item outcomes: each dispatched removal
is paired with its own remote outcome. -/
def unfriendallRunWithOutcomes (ownerid : List String) (bots : List BotAcc)
    (outcome : Nat × String → CallOutcome) : List (Nat × String × CallOutcome) :=
  (unfriendallDispatch ownerid bots).map
    (fun t => (t.2.1, t.2.2, outcome (t.2.1, t.2.2)))

/- ================== RestartState: controller.js ================== -/

/-- The parsed restart payload (`JSON.parse(data)` in `restartdata`): each
field may be absent.  Arrays and objects are truthy in JS whenever present, a
boolean field is truthy only when true. -/
structure RestartPayload where
  oldconfig : Option String
  logafterrestart : Option (List String)
  skippedaccounts : Option (List String)
  updateFailed : Option Bool
deriving Repr, DecidableEq

/-- The module-level variables of controller.js that carry data through a
restart. -/
structure RestartGlobals where
  oldconfig : Option String
  logafterrestart : List String
  skippedaccounts : List String
  updateFailed : Bool
deriving Repr, DecidableEq

/-- The values the module-level variables are initialized to at boot, before
`restartdata` runs (`var oldconfig = {}; var logafterrestart = [];
var updateFailed = false; var skippedaccounts = [];`). -/
def bootDefaults : RestartGlobals :=
  { oldconfig := none, logafterrestart := [], skippedaccounts := [],
    updateFailed := false }

/-- `restartdata(data)`: each `if (data.field) field = data.field` guard
assigns only when the parsed field is truthy — always for a present
array/object field, and only for `true` for the boolean `updateFailed`. -/
def restartdata (d : RestartPayload) (g : RestartGlobals) : RestartGlobals :=
  { oldconfig :=
      match d.oldconfig with
      | some c => some c
      | none => g.oldconfig,
    logafterrestart :=
      match d.logafterrestart with
      | some a => a
      | none => g.logafterrestart,
    skippedaccounts :=
      match d.skippedaccounts with
      | some a => a
      | none => g.skippedaccounts,
    updateFailed :=
      match d.updateFailed with
      | some b => if b then b else g.updateFailed
      | none => g.updateFailed }

/-- The RestartState boundary object of the spec: the fields carried across a
restart. -/
structure RestartState where
  skippedaccounts : List String
  logafterrestart : List String
  updateFailed : Bool
deriving Repr, DecidableEq

/-- Serialization of a full RestartState into the payload (`JSON.stringify`
keeps every present field, including `false`). -/
def serializeRestartState (s : RestartState) : RestartPayload :=
  { oldconfig := none, logafterrestart := some s.logafterrestart,
    skippedaccounts := some s.skippedaccounts,
    updateFailed := some s.updateFailed }

/-- `Controller.prototype.restart(data)`: with no argument it serializes
`{ skippedaccounts: this.info.skippedaccounts, updateFailed: false }`,
otherwise it sends the given payload verbatim to the host process. -/
def restart (data : Option RestartPayload) (infoSkippedaccounts : List String) :
    RestartPayload :=
  match data with
  | some d => d
  | none =>
      { oldconfig := none, logafterrestart := none,
        skippedaccounts := some infoSkippedaccounts, updateFailed := some false }

/- ================== FriendlistCapacityManager ================== -/

/-- The spec's policy default for the low-capacity warn threshold. -/
def warnThresholdDefault : Nat := 10

/-- Result of one friendlist capacity check: the remaining capacity and how
many warning signals this check emitted. -/
structure CapacityCheckResult where
  remaining : Int
  warnings : Nat
deriving Repr, DecidableEq

/-- Modelled from the spec: the implementation of
`Controller.prototype.friendListCapacityCheck` is not among the provided
source files (only its JSDoc declaration in controller.js and its caller in
the addfriend command are).  Per the spec, the check computes
`remaining = maxCapacity - currentRelationshipCount` and, if
`remaining < warnThreshold` (policy default 10), emits one warning signal per
check (not per relationship). -/
def friendListCapacityCheck (warnThreshold maxCapacity
    currentRelationshipCount : Nat) : CapacityCheckResult :=
  let remaining : Int := (maxCapacity : Int) - (currentRelationshipCount : Int)
  { remaining := remaining,
    warnings := if remaining < (warnThreshold : Int) then 1 else 0 }

/- ================== limitedcheck.js ================== -/

/-- One account of the botobject as limitedcheck reads it: `limitations` may
be `undefined` (outer `none`), and `limitations.limited` may itself be
`undefined` (inner `none`). -/
structure LimitedcheckAcc where
  limitations : Option (Option Bool)
deriving Repr, DecidableEq

/-- One iteration of the limitedcheck loop over `(limitedaccs, failedtocheck)`:
a defined `limitations.limited` counts `limitedaccs` when true, an undefined
`limitations` or `limitations.limited` counts `failedtocheck`. -/
def limitedcheckStep (acc : Nat × Nat) (a : LimitedcheckAcc) : Nat × Nat :=
  match a.limitations with
  | some (some b) => (if b then acc.1 + 1 else acc.1, acc.2)
  | some none => (acc.1, acc.2 + 1)
  | none => (acc.1, acc.2 + 1)

/-- The loop of limitedcheck.check: iterate over all accounts; at the last
iteration (`Number(i) + 1 == Object.keys(botobject).length`), the callback is
invoked with the counters only when `limitedaccs > 0`.  The third component
is the callback invocation (its arguments) or `none`. -/
def limitedcheckLoop (l f : Nat) : List LimitedcheckAcc → Nat × Nat × Option (Nat × Nat)
  | [] => (l, f, none)
  | a :: rest =>
      let s := limitedcheckStep (l, f) a
      match rest with
      | [] => (s.1, s.2, if 0 < s.1 then some (s.1, s.2) else none)
      | b :: rest2 => limitedcheckLoop s.1 s.2 (b :: rest2)

/-- `limitedcheck.check(botobject, callback)` in its exception-free semantics
(every property access in the loop body is guarded, so the catch branch is
unreachable in this model). -/
def limitedcheckCheck (botobject : List LimitedcheckAcc) :
    Nat × Nat × Option (Nat × Nat) :=
  limitedcheckLoop 0 0 botobject

/- ================== Theorems: C1 ================== -/

/-- C1: for every proxy record and every probe outcome, `checkProxy` is a
total function (never propagates an exception), sets `isOnline` to true
exactly when the probe resolved with a status code in the 200-299 range, and
unconditionally sets `lastOnlineCheck` to the current time. -/
theorem checkProxy_sets_isOnline_iff_2xx (outcome : ProbeOutcome) (now : Nat)
    (p : ProxyRecord) :
    (((checkProxy outcome now p).1).isOnline = true ↔
      ∃ code, outcome = ProbeOutcome.resolved code ∧ 200 ≤ code ∧ code < 300) ∧
    ((checkProxy outcome now p).1).lastOnlineCheck = now ∧
    (checkProxy outcome now p).2 = ((checkProxy outcome now p).1).isOnline := by
  refine ⟨?_, ?_, ?_⟩
  · cases outcome with
    | resolved code =>
        simp only [checkProxy, Bool.and_eq_true, decide_eq_true_eq]
        constructor
        · rintro ⟨h1, h2⟩
          exact ⟨code, rfl, h1, h2⟩
        · rintro ⟨c, hc, h1, h2⟩
          cases hc
          exact ⟨h1, h2⟩
    | rejected =>
        simp only [checkProxy]
        constructor
        · intro h
          cases h
        · rintro ⟨c, hc, -⟩
          cases hc
  · cases outcome <;> rfl
  · cases outcome <;> rfl

theorem modifyIdx_length (f : ProxyRecord → ProxyRecord) :
    ∀ (i : Nat) (l : List ProxyRecord), (modifyIdx f i l).length = l.length := by
  intro i l
  induction l generalizing i with
  | nil => cases i <;> rfl
  | cons p ps ih => cases i with
    | zero => rfl
    | succ n => exact congrArg Nat.succ (ih n)

theorem modifyIdx_get?_same (f : ProxyRecord → ProxyRecord) :
    ∀ (i : Nat) (l : List ProxyRecord),
      (modifyIdx f i l).get? i = (l.get? i).map f := by
  intro i l
  induction l generalizing i with
  | nil => cases i <;> rfl
  | cons p ps ih => cases i with
    | zero => rfl
    | succ n => exact ih n

theorem modifyIdx_get?_other (f : ProxyRecord → ProxyRecord) :
    ∀ (i k : Nat) (l : List ProxyRecord), k ≠ i →
      (modifyIdx f i l).get? k = l.get? k := by
  intro i k l
  induction l generalizing i k with
  | nil => intro _; cases i <;> rfl
  | cons p ps ih =>
      intro hk
      cases i with
      | zero =>
          cases k with
          | zero => exact absurd rfl hk
          | succ m => rfl
      | succ n =>
          cases k with
          | zero => rfl
          | succ m => exact ih n m (fun h => hk (congrArg Nat.succ h))

theorem foldl_modifyIdx_get? (F : Nat → ProxyRecord → ProxyRecord) :
    ∀ (is : List Nat), is.Nodup → ∀ (l : List ProxyRecord) (k : Nat),
      (is.foldl (fun acc i => modifyIdx (F i) i acc) l).get? k =
        if k ∈ is then (l.get? k).map (F k) else l.get? k := by
  intro is
  induction is with
  | nil =>
      intro _ l k
      simp
  | cons i rest ih =>
      intro hnd l k
      have hnd2 := List.nodup_cons.mp hnd
      have step : (i :: rest).foldl (fun acc j => modifyIdx (F j) j acc) l =
          rest.foldl (fun acc j => modifyIdx (F j) j acc) (modifyIdx (F i) i l) := rfl
      rw [step, ih hnd2.2]
      by_cases hk : k = i
      · subst hk
        have hni : k ∉ rest := hnd2.1
        simp only [hni, if_false, List.mem_cons, true_or, if_true,
          modifyIdx_get?_same]
      · rw [modifyIdx_get?_other (F i) i k l hk]
        have : (k ∈ i :: rest) ↔ (k ∈ rest) := by
          simp [List.mem_cons, hk]
        by_cases hm : k ∈ rest
        · simp [hm, this]
        · simp [hm, this]

theorem foldl_modifyIdx_length (F : Nat → ProxyRecord → ProxyRecord) :
    ∀ (is : List Nat) (l : List ProxyRecord),
      (is.foldl (fun acc i => modifyIdx (F i) i acc) l).length = l.length := by
  intro is
  induction is with
  | nil => intro l; rfl
  | cons i rest ih =>
      intro l
      have step : (i :: rest).foldl (fun acc j => modifyIdx (F j) j acc) l =
          rest.foldl (fun acc j => modifyIdx (F j) j acc) (modifyIdx (F i) i l) := rfl
      rw [step, ih, modifyIdx_length]

theorem map_proxyIndex_eq_range (ps : List ProxyRecord)
    (wf : ∀ (k : Nat) (h : k < ps.length), (ps.get ⟨k, h⟩).proxyIndex = k) :
    ps.map (fun e => e.proxyIndex) = List.range ps.length := by
  apply List.ext_getElem
  · simp
  · intro i h1 h2
    have hi : i < ps.length := by simpa using h1
    rw [List.getElem_map, List.getElem_range]
    exact wf i hi

/- ================== Theorems: C2 ================== -/

/-- C2: for every set of configured proxy records (well-formed: each record's
`proxyIndex` is its position in the array), `checkAllProxies` is total (it
resolves, never rejects, whatever the individual probe outcomes are) and in
the resulting array every distinct proxy's record has been updated by its own
check: its `lastOnlineCheck` is the check time and its `isOnline` reflects its
probe outcome. -/
theorem checkAllProxies_updates_every_proxy (outcomes : Nat → ProbeOutcome)
    (now : Nat) (ps : List ProxyRecord)
    (wf : ∀ (k : Nat) (h : k < ps.length), (ps.get ⟨k, h⟩).proxyIndex = k) :
    (checkAllProxies outcomes now ps).length = ps.length ∧
    ∀ (k : Nat) (h : k < ps.length),
      (checkAllProxies outcomes now ps).get? k =
        some (checkProxy (outcomes k) now (ps.get ⟨k, h⟩)).1 ∧
      ((checkProxy (outcomes k) now (ps.get ⟨k, h⟩)).1).lastOnlineCheck = now := by
  have hmap := map_proxyIndex_eq_range ps wf
  have hnd : (ps.map (fun e => e.proxyIndex)).Nodup := by
    rw [hmap]; exact List.nodup_range ps.length
  constructor
  · exact foldl_modifyIdx_length (fun j q => (checkProxy (outcomes j) now q).1)
      (ps.map (fun e => e.proxyIndex)) ps
  · intro k h
    constructor
    · unfold checkAllProxies
      rw [foldl_modifyIdx_get? (fun j q => (checkProxy (outcomes j) now q).1)
        (ps.map (fun e => e.proxyIndex)) hnd ps k]
      have hk : k ∈ ps.map (fun e => e.proxyIndex) := by
        rw [hmap]; exact List.mem_range.mpr h
      rw [if_pos hk, List.get?_eq_get h]
      rfl
    · cases outcomes k <;> rfl

/-- C2 witness: the theorem applied to a concrete two-proxy array in which
proxy 0 resolves with 204 and proxy 1 rejects. -/
theorem checkAllProxies_updates_every_proxy_witness :
    (checkAllProxies (fun i => if i = 0 then ProbeOutcome.resolved 204 else ProbeOutcome.rejected)
      42
      [{ proxy := some "127.0.0.1:8080:user:pass", proxyIndex := 0, isOnline := false,
         lastOnlineCheck := 0 },
       { proxy := none, proxyIndex := 1, isOnline := true, lastOnlineCheck := 0 }]).length = 2 :=
  (checkAllProxies_updates_every_proxy
    (fun i => if i = 0 then ProbeOutcome.resolved 204 else ProbeOutcome.rejected) 42
    [{ proxy := some "127.0.0.1:8080:user:pass", proxyIndex := 0, isOnline := false,
       lastOnlineCheck := 0 },
     { proxy := none, proxyIndex := 1, isOnline := true, lastOnlineCheck := 0 }]
    (by decide)).1

/- ================== Theorems: C3 ================== -/

/-- C3 counterexample: batch of two bot accounts in which the main (first)
account is limited and the second is unlimited and eligible.  addFriend.run
responds with the `addfriendcmdacclimited` error and returns before the batch
loop, so the unlimited account of the batch issues no request — contradicting
the claim that unlimited accounts in the same batch still issue theirs. -/
theorem addfriend_limited_main_blocks_unlimited_cex :
    isLimited (BotUser.mk (some (Limitations.mk false)) []) = false ∧
    addFriendRun (BotUser.mk (some (Limitations.mk true)) [])
      [BotAcc.mk 0 (BotUser.mk (some (Limitations.mk true)) []),
       BotAcc.mk 1 (BotUser.mk (some (Limitations.mk false)) [])]
      "76561198011111111" = AddFriendRunResult.mk true [] :=
  ⟨rfl, rfl⟩

/-- C3 (amended): provided the main (first) bot account is not limited, the
batch loop runs for every bot account; a limited account's friend-add request
is dropped with a logged error and issues no remote `addFriend` call, an
unlimited account not already friends with and not blocked by the target
schedules its remote call; comment/vote actions are never blocked by the
limitation flag alone.  (If the main account is limited the whole command is
refused upfront and no account issues a request.) -/
theorem addfriend_limited_skip_amended (mainUser : BotUser) (bots : List BotAcc)
    (res : String) (hmain : isLimited mainUser = false) :
    (addFriendRun mainUser bots res).events =
      bots.enum.map (fun p => addFriendBotAction res p.1 p.2) ∧
    (∀ p ∈ bots.enum,
      (isLimited p.2.user = true →
        addFriendBotAction res p.1 p.2 = AddFriendEvent.limitedSkip p.2.index ∧
        issuesRemoteCall (addFriendBotAction res p.1 p.2) = false) ∧
      (isLimited p.2.user = false → relOf p.2.user res ≠ some 3 →
        relOf p.2.user res ≠ some 1 →
        addFriendBotAction res p.1 p.2 =
          AddFriendEvent.schedule (5000 * p.1) p.2.index res)) ∧
    (∀ u : BotUser, commentActionBlockedByLimitation u = false) := by
  refine ⟨?_, ?_, fun u => rfl⟩
  · simp [addFriendRun, hmain]
  · intro p _
    constructor
    · intro hlim
      constructor
      · simp [addFriendBotAction, hlim]
      · simp [addFriendBotAction, hlim, issuesRemoteCall]
    · intro hlim h3 h1
      simp [addFriendBotAction, hlim, h3, h1]

/-- C3 witness: the amended theorem applied to a concrete batch whose main
account is unlimited. -/
theorem addfriend_limited_skip_amended_witness :
    (addFriendRun (BotUser.mk (some (Limitations.mk false)) [])
      [BotAcc.mk 0 (BotUser.mk (some (Limitations.mk true)) []),
       BotAcc.mk 1 (BotUser.mk (some (Limitations.mk false)) [])]
      "76561198011111111").events =
      ([BotAcc.mk 0 (BotUser.mk (some (Limitations.mk true)) []),
        BotAcc.mk 1 (BotUser.mk (some (Limitations.mk false)) [])].enum).map
        (fun p => addFriendBotAction "76561198011111111" p.1 p.2) :=
  (addfriend_limited_skip_amended (BotUser.mk (some (Limitations.mk false)) [])
    [BotAcc.mk 0 (BotUser.mk (some (Limitations.mk true)) []),
     BotAcc.mk 1 (BotUser.mk (some (Limitations.mk false)) [])]
    "76561198011111111" (by decide)).1

/- ================== Theorems: C4 ================== -/

/-- C4: in each bulk command the remote call of the account at batch position
`i` is scheduled at the per-item delay times `i` — 5000 ms for addfriend,
1000 ms for unfriend and unfriendall — and for any one peer removed by
unfriendall, the removal calls issued across the fleet by the accounts at
positions `i` and `j` are spaced by the per-item delay times `j - i`. -/
theorem bulk_stagger_delay (bots : List BotAcc) (res : String)
    (ctx : UnfriendCtx) (args : List String) (resolveResult : Option String)
    (ownerid : List String) :
    (∀ p ∈ bots.enum, ∀ d idx t,
      addFriendBotAction res p.1 p.2 = AddFriendEvent.schedule d idx t →
        d = 5000 * p.1) ∧
    (∀ calls, unfriendRun ctx args resolveResult = UnfriendOutcome.dispatched calls →
      ∀ c ∈ calls, c.1 = 1000 * c.2.1) ∧
    (∀ t ∈ unfriendallTimers bots, t.1 = 1000 * t.2.1) ∧
    (∀ t1 ∈ unfriendallDispatch ownerid bots,
      ∀ t2 ∈ unfriendallDispatch ownerid bots,
      t1.2.2 = t2.2.2 → t2.1 - t1.1 = 1000 * (t2.2.1 - t1.2.1)) := by
  have timersKey : ∀ t ∈ unfriendallTimers bots, t.1 = 1000 * t.2.1 := by
    intro t ht
    rcases List.mem_flatMap.mp ht with ⟨p, _, hm⟩
    rcases List.mem_map.mp hm with ⟨fr, _, rfl⟩
    rfl
  refine ⟨?_, ?_, timersKey, ?_⟩
  · intro p _ d idx t h
    unfold addFriendBotAction at h
    cases hli : isLimited p.2.user with
    | true => simp [hli] at h
    | false =>
        simp only [hli, Bool.false_eq_true, if_false] at h
        by_cases hc : relOf p.2.user res ≠ some 3 ∧ relOf p.2.user res ≠ some 1
        · rw [if_pos hc] at h
          exact (AddFriendEvent.schedule.injEq _ _ _ _ _ _ |>.mp h).1.symm
        · rw [if_neg hc] at h
          simp at h
  · intro calls hrun c hc
    cases resolveResult with
    | none =>
        unfold unfriendRun at hrun
        dsimp only at hrun
        split_ifs at hrun <;> injection hrun with h <;>
          (subst h; rcases List.mem_map.mp hc with ⟨p, _, rfl⟩; rfl)
    | some r =>
        unfold unfriendRun at hrun
        dsimp only at hrun
        split_ifs at hrun <;> injection hrun with h <;>
          (subst h; rcases List.mem_map.mp hc with ⟨p, _, rfl⟩; rfl)
  · intro t1 h1 t2 h2 _
    have e1 := timersKey t1 (List.mem_of_mem_filter h1)
    have e2 := timersKey t2 (List.mem_of_mem_filter h2)
    omega

/- ================== Theorems: C5 ================== -/

/-- C5: evidence at the failing input.  A pending unfriendall invocation
(normal arguments) is followed by an abort invocation before its 30 second
start timer fires.  The abort invocation sets only its own fresh
function-scoped `abortunfriendall`; the pending invocation's flag stays
false, so when its timer fires the whole batch is dispatched anyway — and the
per-friend staggered timers never consult the flag at all.  The claim (abort
prevents the staggered actions, checked before each action fires) fails here. -/
theorem unfriendall_abort_has_no_effect :
    (unfriendallSync ["abort"]).abortunfriendall = true ∧
    ((unfriendallRunEffect ["abort"] (unfriendallSync [])).2).abortunfriendall = false ∧
    unfriendallTimerFire ((unfriendallRunEffect ["abort"] (unfriendallSync [])).2)
      ["10100"]
      [BotAcc.mk 0 (BotUser.mk (some (Limitations.mk false)) [("44444", 3)])] =
      [(0, 0, "44444")] := by
  refine ⟨rfl, rfl, ?_⟩
  decide

/- ================== Theorems: C6 ================== -/

/-- C6: for every RestartState payload, writing it via `restart(data)` and
ingesting it once at the next boot via `restartdata` (over the boot defaults
of the module-level variables) restores exactly the serialized values of
`skippedaccounts`, `logafterrestart` and `updateFailed`: the round trip is the
identity on these fields.  The default payload written by `restart()` with no
argument likewise restores the current `skippedaccounts` and
`updateFailed = false`. -/
theorem restartstate_roundtrip_identity (s : RestartState) (sk : List String) :
    ((restartdata (restart (some (serializeRestartState s)) sk) bootDefaults).skippedaccounts =
        s.skippedaccounts ∧
      (restartdata (restart (some (serializeRestartState s)) sk) bootDefaults).logafterrestart =
        s.logafterrestart ∧
      (restartdata (restart (some (serializeRestartState s)) sk) bootDefaults).updateFailed =
        s.updateFailed) ∧
    ((restartdata (restart none sk) bootDefaults).skippedaccounts = sk ∧
      (restartdata (restart none sk) bootDefaults).updateFailed = false) := by
  cases s with
  | mk sa la uf =>
      cases uf <;>
        simp [restartdata, restart, serializeRestartState, bootDefaults]

/- ================== Theorems: C7 ================== -/

/-- C7: in the addfriend batch, which items are present and what each
non-dispatching item reports is independent of the remote outcomes, and a
dispatched item's report depends only on that item's own outcome — so a
per-item failure is reported for that item only and never removes or aborts a
sibling's request; likewise the unfriendall batch dispatches the same removal
calls whatever the per-item outcomes are. -/
theorem bulk_per_item_outcome_independence (mainUser : BotUser)
    (bots : List BotAcc) (res : String) (o1 o2 : Nat → CallOutcome)
    (ownerid : List String) (p1 p2 : Nat × String → CallOutcome) :
    (addFriendRunWithOutcomes mainUser bots res o1).length =
      (addFriendRunWithOutcomes mainUser bots res o2).length ∧
    (∀ k d idx t,
      (addFriendRun mainUser bots res).events.get? k =
        some (AddFriendEvent.schedule d idx t) →
      o1 idx = o2 idx →
      (addFriendRunWithOutcomes mainUser bots res o1).get? k =
        (addFriendRunWithOutcomes mainUser bots res o2).get? k) ∧
    (∀ k ev, (addFriendRun mainUser bots res).events.get? k = some ev →
      issuesRemoteCall ev = false →
      (addFriendRunWithOutcomes mainUser bots res o1).get? k =
        (addFriendRunWithOutcomes mainUser bots res o2).get? k) ∧
    ((unfriendallRunWithOutcomes ownerid bots p1).map (fun r => (r.1, r.2.1)) =
      (unfriendallRunWithOutcomes ownerid bots p2).map (fun r => (r.1, r.2.1))) := by
  refine ⟨?_, ?_, ?_, ?_⟩
  · simp [addFriendRunWithOutcomes]
  · intro k d idx t hev ho
    unfold addFriendRunWithOutcomes
    rw [List.get?_map, List.get?_map, hev]
    simp [addFriendItemReport, ho]
  · intro k ev hev hrc
    unfold addFriendRunWithOutcomes
    rw [List.get?_map, List.get?_map, hev]
    cases ev with
    | limitedSkip idx => rfl
    | schedule d idx t => simp [issuesRemoteCall] at hrc
    | alreadyFriendOrBlocked idx => rfl
  · unfold unfriendallRunWithOutcomes
    rw [List.map_map, List.map_map]
    rfl

/- ================== Theorems: C8 ================== -/

/-- C8: a friendlist capacity check emits the low-capacity warning exactly
when the remaining capacity is below the warn threshold at its policy default
of 10, and it emits at most one warning per check, independently of how many
relationships the account holds. -/
theorem capacityCheck_warn_threshold (maxCapacity currentRelationshipCount : Nat) :
    ((friendListCapacityCheck warnThresholdDefault maxCapacity
        currentRelationshipCount).warnings = 1 ↔
      (maxCapacity : Int) - (currentRelationshipCount : Int) < 10) ∧
    (friendListCapacityCheck warnThresholdDefault maxCapacity
        currentRelationshipCount).warnings ≤ 1 := by
  unfold friendListCapacityCheck warnThresholdDefault
  constructor
  · by_cases h : (maxCapacity : Int) - (currentRelationshipCount : Int) < 10 <;>
      simp [h]
  · dsimp only
    split <;> simp

/- ================== Theorems: C9 ================== -/

theorem limitedcheckStep_count_of_not_limited (l f : Nat) (a : LimitedcheckAcc)
    (h : a.limitations ≠ some (some true)) : (limitedcheckStep (l, f) a).1 = l := by
  cases ha : a.limitations with
  | none => simp [limitedcheckStep, ha]
  | some lim =>
      cases lim with
      | none => simp [limitedcheckStep, ha]
      | some b =>
          cases b with
          | true => exact absurd ha h
          | false => simp [limitedcheckStep, ha]

theorem limitedcheckLoop_count_const :
    ∀ (bots : List LimitedcheckAcc) (l f : Nat),
      (∀ a ∈ bots, a.limitations ≠ some (some true)) →
      (limitedcheckLoop l f bots).1 = l := by
  intro bots
  induction bots with
  | nil => intro l f _; rfl
  | cons a rest ih =>
      intro l f hall
      have ha := hall a (List.mem_cons_self a rest)
      have hrest : ∀ x ∈ rest, x.limitations ≠ some (some true) :=
        fun x hx => hall x (List.mem_cons_of_mem a hx)
      cases rest with
      | nil =>
          show (limitedcheckLoop l f [a]).1 = l
          simp only [limitedcheckLoop]
          exact limitedcheckStep_count_of_not_limited l f a ha
      | cons b r2 =>
          have heq : limitedcheckLoop l f (a :: b :: r2) =
              limitedcheckLoop (limitedcheckStep (l, f) a).1
                (limitedcheckStep (l, f) a).2 (b :: r2) := rfl
          rw [heq, ih _ _ hrest]
          exact limitedcheckStep_count_of_not_limited l f a ha

theorem limitedcheckLoop_callback_shape :
    ∀ (bots : List LimitedcheckAcc) (l f : Nat),
      (limitedcheckLoop l f bots).2.2 = none ∨
      ((limitedcheckLoop l f bots).2.2 =
          some ((limitedcheckLoop l f bots).1, (limitedcheckLoop l f bots).2.1) ∧
        0 < (limitedcheckLoop l f bots).1) := by
  intro bots
  induction bots with
  | nil => intro l f; exact Or.inl rfl
  | cons a rest ih =>
      intro l f
      cases rest with
      | nil =>
          by_cases h : 0 < (limitedcheckStep (l, f) a).1
          · right
            constructor
            · simp only [limitedcheckLoop, if_pos h]
            · simpa only [limitedcheckLoop] using h
          · left
            simp only [limitedcheckLoop, if_neg h]
      | cons b r2 =>
          have heq : limitedcheckLoop l f (a :: b :: r2) =
              limitedcheckLoop (limitedcheckStep (l, f) a).1
                (limitedcheckStep (l, f) a).2 (b :: r2) := rfl
          rw [heq]
          exact ih _ _

/-- C9: for every botobject in which no account has a defined
`limitations.limited == true`, `limitedcheck.check` completes without ever
invoking the callback; and whenever the callback is invoked (in the
exception-free semantics) its arguments are the final counters, with
`limitedaccs > 0`. -/
theorem limitedcheck_callback_iff (botobject : List LimitedcheckAcc) :
    ((∀ a ∈ botobject, a.limitations ≠ some (some true)) →
      (limitedcheckCheck botobject).2.2 = none) ∧
    (∀ l f, (limitedcheckCheck botobject).2.2 = some (l, f) →
      0 < l ∧ l = (limitedcheckCheck botobject).1 ∧
        f = (limitedcheckCheck botobject).2.1) := by
  constructor
  · intro hall
    rcases limitedcheckLoop_callback_shape botobject 0 0 with h | ⟨hsome, hpos⟩
    · exact h
    · exfalso
      rw [limitedcheckLoop_count_const botobject 0 0 hall] at hpos
      exact Nat.lt_irrefl 0 hpos
  · intro l f hcb
    rcases limitedcheckLoop_callback_shape botobject 0 0 with h | ⟨hsome, hpos⟩
    · rw [show (limitedcheckCheck botobject).2.2 =
          (limitedcheckLoop 0 0 botobject).2.2 from rfl, h] at hcb
      cases hcb
    · rw [show (limitedcheckCheck botobject).2.2 =
          (limitedcheckLoop 0 0 botobject).2.2 from rfl, hsome] at hcb
      injection hcb with h2
      rw [Prod.mk.injEq] at h2
      obtain ⟨hl, hf⟩ := h2
      exact ⟨hl ▸ hpos, hl.symm, hf.symm⟩

/- ================== Theorems: C10 ================== -/

/-- C10 counterexample: an owner (in the configured owner id list) sends
`unfriend` with no argument from the steam chat.  The no-argument branch of
unfriend.run schedules `removeFriend(resInfo.userID)` on every bot account
without any owner check, so the owner's own id is passed to `removeFriend` —
contradicting the claim that no owner id is ever passed to it. -/
theorem unfriend_noarg_owner_cex :
    ("76561198000000001" ∈
      (UnfriendCtx.mk ["76561198000000001"] [] "76561198000000001" true
        [BotAcc.mk 0 (BotUser.mk (some (Limitations.mk false))
          [("76561198000000001", 3)])]).ownerid) ∧
    unfriendRun
      (UnfriendCtx.mk ["76561198000000001"] [] "76561198000000001" true
        [BotAcc.mk 0 (BotUser.mk (some (Limitations.mk false))
          [("76561198000000001", 3)])])
      [] none =
      UnfriendOutcome.dispatched [(0, 0, "76561198000000001")] := by
  constructor
  · exact List.mem_cons_self _ _
  · rfl

/-- C10 (amended): when unfriend is invoked with an explicit target argument,
a resolved target found in the configured owner id list is refused before any
removal is dispatched, and every dispatched removal targets a non-owner;
unfriendall skips every friend found in the owner id list.  However, the
no-argument branch of unfriend (invoked from the steam chat) passes the
requesting user's own id to `removeFriend` on every bot without an owner
check, so an owner requesting self-removal is unfriended. -/
theorem unfriend_owner_protection_amended (ctx : UnfriendCtx) (args : List String)
    (resolveResult : Option String) (ownerid : List String) (bots : List BotAcc) :
    (∀ calls, args ≠ [] →
      unfriendRun ctx args resolveResult = UnfriendOutcome.dispatched calls →
      ∀ c ∈ calls, c.2.2 ∉ ctx.ownerid) ∧
    (∀ t ∈ unfriendallDispatch ownerid bots, t.2.2 ∉ ownerid) ∧
    (args = [] → ctx.fromSteamChat = true → ctx.userID ≠ "" →
      unfriendRun ctx args resolveResult =
        UnfriendOutcome.dispatched
          (ctx.bots.enum.map (fun p => (1000 * p.1, p.1, ctx.userID)))) := by
  refine ⟨?_, ?_, ?_⟩
  · intro calls hargs hrun c hc
    have hhead : args.head? ≠ none := by
      cases args with
      | nil => exact absurd rfl hargs
      | cons x xs => simp
    unfold unfriendRun at hrun
    dsimp only at hrun
    rw [if_neg (fun hcon => hhead hcon.1), if_neg (fun hcon => hhead hcon.1)] at hrun
    by_cases howner : ctx.userID ∉
        (if ctx.resInfoOwnerIDs.length > 0 then ctx.resInfoOwnerIDs else ctx.ownerid)
    · rw [if_pos howner] at hrun
      injection hrun
    · rw [if_neg howner] at hrun
      cases resolveResult with
      | none => injection hrun
      | some r =>
          dsimp only at hrun
          by_cases hro : r ∈ ctx.ownerid
          · rw [if_pos hro] at hrun
            injection hrun
          · rw [if_neg hro] at hrun
            injection hrun with hmap
            subst hmap
            rcases List.mem_map.mp hc with ⟨p, _, rfl⟩
            exact hro
  · intro t ht
    intro hmem
    have hb := (List.mem_filter.mp ht).2
    have hc2 : ownerid.contains t.2.2 = true := List.elem_iff.mpr hmem
    simp [hc2] at hb
    exact hb hmem
  · intro ha hchat huid
    subst ha
    simp [unfriendRun, hchat, huid]
